import Mathlib

/-!
Verification of the translation-cache / AI-translation-provider / tooltip-renderer
core of the illa-helper browser extension, shallowly embedded from
`src/modules/pronunciation/translation/AITranslationProvider.ts`, the tooltip
renderer in the same file bundle, and the background message handler.

JavaScript `Map` objects are modelled as association lists in insertion order,
which is exactly the iteration order `Map.keys()` exposes:
`Map.set` on an existing key updates the value in place (keeping the key's
original position); on a fresh key it appends at the end.  Timestamps
(`Date.now()`) and durations are modelled as `Int` milliseconds.
-/

set_option maxHeartbeats 1000000

/-- JS `String.prototype.toLowerCase`, character by character. -/
def jsToLower (s : String) : String := String.mk (s.data.map Char.toLower)

/-- JS `String.prototype.trim`: drop whitespace from both ends. -/
def jsTrim (s : String) : String :=
  String.mk (((s.data.dropWhile Char.isWhitespace).reverse.dropWhile Char.isWhitespace).reverse)

/-- JS `String.prototype.substring(0, n)`: the first `n` characters. -/
def jsTake (s : String) (n : Nat) : String := String.mk (s.data.take n)

/-- Payload produced by the AI client (`AITranslationEntry` in `types.ts`,
as used by `parseAIResponse`): an explanation string and a source tag. -/
structure AITranslationEntry where
  explain : String
  source : String
deriving DecidableEq, Repr

/-- Cache slot (`CacheEntry<T>` in `types.ts`, as used by `setCache` /
`getFromCache`): payload plus creation timestamp and ttl. -/
structure CacheEntry (α : Type) where
  data : α
  timestamp : Int
  ttl : Int
deriving DecidableEq, Repr

/-- The in-memory cache `Map<string, CacheEntry<AITranslationEntry>>`,
modelled as an association list in JS `Map` insertion order. -/
abbrev JsMap := List (String × CacheEntry AITranslationEntry)

/-- Keys of the map in insertion (iteration) order, as `Map.keys()` yields them. -/
def mapKeys (m : JsMap) : List String := m.map Prod.fst

/-- `Map.get`: the value stored under `k`, if any. -/
def jsMapGet (m : JsMap) (k : String) : Option (CacheEntry AITranslationEntry) :=
  match m with
  | [] => none
  | (k', v) :: rest => if k' = k then some v else jsMapGet rest k

/-- `Map.set`: update in place if the key is present (keeping its position),
otherwise append at the end of the insertion order. -/
def jsMapSet (m : JsMap) (k : String) (v : CacheEntry AITranslationEntry) : JsMap :=
  match m with
  | [] => [(k, v)]
  | (k', v') :: rest => if k' = k then (k, v) :: rest else (k', v') :: jsMapSet rest k v

/-- `Map.delete`: remove the entry stored under `k` (the first occurrence,
which is the only one for a genuine JS map). -/
def jsMapDelete (m : JsMap) (k : String) : JsMap :=
  match m with
  | [] => []
  | (k', v') :: rest => if k' = k then rest else (k', v') :: jsMapDelete rest k

/-- Modelled from the spec: `API_CONSTANTS.AI_TRANSLATION_CACHE_TTL` lives in
`modules/config`, which is not part of the provided sources; the spec fixes the
cache ttl at 24 hours.  Value in milliseconds. -/
def AI_TRANSLATION_CACHE_TTL : Int := 24 * 60 * 60 * 1000

/-- `AITranslationProvider.getFromCache`: return the entry's data only while
`Date.now() - entry.timestamp < entry.ttl`; an expired entry is deleted lazily
and the lookup reports a miss.  Returns the (possibly shrunk) cache alongside. -/
def getFromCache (m : JsMap) (word : String) (now : Int) :
    Option AITranslationEntry × JsMap :=
  match jsMapGet m word with
  | some entry =>
      if now - entry.timestamp < entry.ttl then (some entry.data, m)
      else (none, jsMapDelete m word)
  | none => (none, m)

/-- `AITranslationProvider.setCache`: store `{data, timestamp := now, ttl}`;
then, if the size exceeds 500, read the first key of the iteration order and
delete it — but only when that key is truthy, which a JS empty string is not
(`const oldestKey = this.cache.keys().next().value; if (oldestKey) ...`). -/
def setCache (m : JsMap) (word : String) (d : AITranslationEntry) (now : Int) : JsMap :=
  let m1 := jsMapSet m word ⟨d, now, AI_TRANSLATION_CACHE_TTL⟩
  if m1.length > 500 then
    match m1.head? with
    | some (oldestKey, _) => if oldestKey ≠ "" then jsMapDelete m1 oldestKey else m1
    | none => m1
  else m1

/-- `AITranslationProvider.parseAIResponse`: trim the response content; an
empty result yields the synthesized placeholder; otherwise the content is run
through `cleanMarkdownFromResponse` (a helper from `@/src/utils`, outside the
provided sources, abstracted here as the `clean` parameter) and truncated to
its first 200 characters with an ellipsis marker when longer. -/
def parseAIResponse (clean : String → String) (content : String) (word : String) :
    AITranslationEntry :=
  let explain := jsTrim content
  if explain = "" then
    ⟨word ++ " 的释义暂不可用", "ai-translation"⟩
  else
    let e := clean explain
    let e := if e.length > 200 then jsTake e 200 ++ "..." else e
    ⟨e, "ai-translation"⟩

/-- Result shape of `getMeaning` (`AITranslationResult` in `types.ts`):
optional fields are `Option`s. -/
structure AITranslationResult where
  success : Bool
  data : Option AITranslationEntry
  cached : Option Bool
  error : Option String
deriving DecidableEq, Repr

/-- Outcome of one `getMeaning` call: the returned result, the cache state
afterwards, and whether the network (`universalApi.call`) was invoked. -/
structure GetMeaningOutcome where
  result : AITranslationResult
  cache : JsMap
  networkCalled : Bool
deriving Repr

/-- Response of the mocked `universalApi.call` network oracle. -/
structure NetworkResult where
  success : Bool
  content : String
  error : String
deriving DecidableEq, Repr

/-- `AITranslationProvider.getMeaning`: validate the word (`!word` rejects the
empty string), normalize it (`toLowerCase().trim()`), consult the cache, fail
fast on a missing API key, otherwise call the AI endpoint once and cache the
parsed response.  `clean` abstracts `cleanMarkdownFromResponse`; `network` is
the oracle for the single outbound call. -/
def getMeaning (clean : String → String) (apiKey : String) (cache : JsMap)
    (now : Int) (network : NetworkResult) (word : String) : GetMeaningOutcome :=
  if word = "" then
    ⟨⟨false, none, none, some "单词参数无效"⟩, cache, false⟩
  else
    let cleanWord := jsTrim (jsToLower word)
    let r := getFromCache cache cleanWord now
    match r.1 with
    | some d => ⟨⟨true, some d, some true, none⟩, r.2, false⟩
    | none =>
        if apiKey = "" then
          ⟨⟨false, none, none, some "AI API配置不完整：缺少API Key"⟩, r.2, false⟩
        else if network.success then
          let info := parseAIResponse clean network.content cleanWord
          ⟨⟨true, some info, some false, none⟩, setCache r.2 cleanWord info now, true⟩
        else
          ⟨⟨false, none, none,
            some (if network.error = "" then "AI翻译请求失败" else network.error)⟩,
           r.2, true⟩

/-! ### Association-list lemmas for the JS `Map` model -/

@[simp] theorem mapKeys_nil : mapKeys [] = [] := rfl

@[simp] theorem mapKeys_cons (p : String × CacheEntry AITranslationEntry) (rest : JsMap) :
    mapKeys (p :: rest) = p.1 :: mapKeys rest := rfl

theorem mapKeys_append (a b : JsMap) : mapKeys (a ++ b) = mapKeys a ++ mapKeys b := by
  simp [mapKeys]

theorem jsMapGet_set_self (m : JsMap) (k : String) (v : CacheEntry AITranslationEntry) :
    jsMapGet (jsMapSet m k v) k = some v := by
  induction m with
  | nil => simp [jsMapSet, jsMapGet]
  | cons p rest ih =>
    obtain ⟨k', v'⟩ := p
    by_cases h : k' = k
    · simp [jsMapSet, jsMapGet, h]
    · simp [jsMapSet, jsMapGet, h, ih]

theorem jsMapGet_none_of_not_mem (m : JsMap) (k : String) (h : k ∉ mapKeys m) :
    jsMapGet m k = none := by
  induction m with
  | nil => simp [jsMapGet]
  | cons p rest ih =>
    obtain ⟨k', v'⟩ := p
    simp at h
    have h1 : ¬k' = k := fun hc => h.1 hc.symm
    simp [jsMapGet, h1, ih h.2]

theorem jsMapSet_length_of_mem (m : JsMap) (k : String) (v : CacheEntry AITranslationEntry)
    (h : k ∈ mapKeys m) : (jsMapSet m k v).length = m.length := by
  induction m with
  | nil => simp at h
  | cons p rest ih =>
    obtain ⟨k', v'⟩ := p
    by_cases hk : k' = k
    · simp [jsMapSet, hk]
    · simp at h
      have h2 : k ∈ mapKeys rest := h.resolve_left (fun hc => hk hc.symm)
      simp [jsMapSet, hk, ih h2]

theorem jsMapSet_fresh (m : JsMap) (k : String) (v : CacheEntry AITranslationEntry)
    (h : k ∉ mapKeys m) : jsMapSet m k v = m ++ [(k, v)] := by
  induction m with
  | nil => simp [jsMapSet]
  | cons p rest ih =>
    obtain ⟨k', v'⟩ := p
    simp at h
    have h1 : ¬k' = k := fun hc => h.1 hc.symm
    simp [jsMapSet, h1, ih h.2]

theorem jsMapSet_length_fresh (m : JsMap) (k : String) (v : CacheEntry AITranslationEntry)
    (h : k ∉ mapKeys m) : (jsMapSet m k v).length = m.length + 1 := by
  rw [jsMapSet_fresh m k v h]
  simp

theorem jsMapGet_delete_ne (m : JsMap) (k k' : String) (h : k' ≠ k) :
    jsMapGet (jsMapDelete m k') k = jsMapGet m k := by
  induction m with
  | nil => simp [jsMapDelete]
  | cons p rest ih =>
    obtain ⟨k0, v0⟩ := p
    by_cases h0 : k0 = k'
    · subst h0
      simp [jsMapDelete, jsMapGet, h]
    · simp [jsMapDelete, jsMapGet, h0, ih]

theorem jsMapGet_delete_self (m : JsMap) (k : String) (h : (mapKeys m).Nodup) :
    jsMapGet (jsMapDelete m k) k = none := by
  induction m with
  | nil => simp [jsMapDelete, jsMapGet]
  | cons p rest ih =>
    obtain ⟨k0, v0⟩ := p
    simp at h
    by_cases h0 : k0 = k
    · subst h0
      simp [jsMapDelete]
      exact jsMapGet_none_of_not_mem rest k0 h.1
    · simp [jsMapDelete, jsMapGet, h0, ih h.2]

theorem jsMapDelete_length_le (m : JsMap) (k : String) :
    (jsMapDelete m k).length ≤ m.length := by
  induction m with
  | nil => simp [jsMapDelete]
  | cons p rest ih =>
    obtain ⟨k0, v0⟩ := p
    by_cases h0 : k0 = k
    · simp [jsMapDelete, h0]
    · simp [jsMapDelete, h0]
      omega

theorem getFromCache_length_le (m : JsMap) (w : String) (now : Int) :
    (getFromCache m w now).2.length ≤ m.length := by
  unfold getFromCache
  cases hg : jsMapGet m w with
  | none => simp
  | some e =>
    by_cases hv : now - e.timestamp < e.ttl
    · simp [hv]
    · simp [hv, jsMapDelete_length_le]

theorem setCache_get_self (m : JsMap) (k : String) (d : AITranslationEntry) (now : Int)
    (h500 : m.length ≤ 500) :
    jsMapGet (setCache m k d now) k = some ⟨d, now, AI_TRANSLATION_CACHE_TTL⟩ := by
  simp only [setCache]
  set v : CacheEntry AITranslationEntry := ⟨d, now, AI_TRANSLATION_CACHE_TTL⟩ with hv
  have hget : jsMapGet (jsMapSet m k v) k = some v := jsMapGet_set_self m k v
  by_cases hbig : (jsMapSet m k v).length > 500
  · have hfresh : k ∉ mapKeys m := by
      intro hmem
      have := jsMapSet_length_of_mem m k v hmem
      omega
    rw [if_pos hbig]
    cases m with
    | nil => simp [jsMapSet] at hbig
    | cons p mt =>
      obtain ⟨k0, v0⟩ := p
      have hk0 : k0 ≠ k := by
        intro hc
        exact hfresh (by simp [hc])
      have hhead : (jsMapSet ((k0, v0) :: mt) k v).head? = some (k0, v0) := by
        simp [jsMapSet, hk0]
      rw [hhead]
      by_cases h0 : k0 = ""
      · subst h0
        simpa using hget
      · simp [h0, jsMapGet_delete_ne _ _ _ hk0, hget]
  · rw [if_neg hbig]
    exact hget

theorem setCache_length_le (m : JsMap) (k : String) (d : AITranslationEntry) (now : Int)
    (h500 : m.length ≤ 500) (hne : "" ∉ mapKeys m) :
    (setCache m k d now).length ≤ 500 := by
  simp only [setCache]
  set v : CacheEntry AITranslationEntry := ⟨d, now, AI_TRANSLATION_CACHE_TTL⟩ with hv
  by_cases hbig : (jsMapSet m k v).length > 500
  · have hfresh : k ∉ mapKeys m := by
      intro hmem
      have := jsMapSet_length_of_mem m k v hmem
      omega
    rw [if_pos hbig]
    cases m with
    | nil => simp [jsMapSet] at hbig
    | cons p mt =>
      obtain ⟨k0, v0⟩ := p
      have hk0 : k0 ≠ k := by
        intro hc
        exact hfresh (by simp [hc])
      have h0 : k0 ≠ "" := by
        intro hc
        exact hne (by simp [hc])
      have hhead : (jsMapSet ((k0, v0) :: mt) k v).head? = some (k0, v0) := by
        simp [jsMapSet, hk0]
      rw [hhead]
      have hset : jsMapSet ((k0, v0) :: mt) k v = (k0, v0) :: jsMapSet mt k v := by
        simp [jsMapSet, hk0]
      have hmt : (jsMapSet mt k v).length = mt.length + 1 := by
        apply jsMapSet_length_fresh
        intro hmem
        exact hfresh (by simp [hmem])
      simp only [h0, ne_eq, not_false_iff, if_true, hset]
      simp [jsMapDelete]
      simp at h500
      omega
  · rw [if_neg hbig]
    omega

theorem setCache_fifo (m : JsMap) (k : String) (d : AITranslationEntry) (now : Int)
    (h500 : m.length = 500) (hfresh : k ∉ mapKeys m) (hne : "" ∉ mapKeys m) :
    setCache m k d now = m.tail ++ [(k, ⟨d, now, AI_TRANSLATION_CACHE_TTL⟩)] := by
  simp only [setCache]
  set v : CacheEntry AITranslationEntry := ⟨d, now, AI_TRANSLATION_CACHE_TTL⟩ with hv
  have happ : jsMapSet m k v = m ++ [(k, v)] := jsMapSet_fresh m k v hfresh
  have hbig : (jsMapSet m k v).length > 500 := by
    rw [happ]
    simp [h500]
  rw [if_pos hbig]
  cases m with
  | nil => simp at h500
  | cons p mt =>
    obtain ⟨k0, v0⟩ := p
    have hk0 : k0 ≠ k := by
      intro hc
      exact hfresh (by simp [hc])
    have h0 : k0 ≠ "" := by
      intro hc
      exact hne (by simp [hc])
    have hhead : (jsMapSet ((k0, v0) :: mt) k v).head? = some (k0, v0) := by
      simp [jsMapSet, hk0]
    rw [hhead]
    simp only [h0, ne_eq, not_false_iff, if_true]
    rw [happ]
    simp [jsMapDelete]

/-! ### Reachability of an over-full cache through the empty-string key -/

theorem setCache_head_empty (v0 : CacheEntry AITranslationEntry) (mt : JsMap) (k : String)
    (d : AITranslationEntry) (now : Int) (hk : k ∉ mapKeys (("", v0) :: mt)) :
    setCache (("", v0) :: mt) k d now
      = ("", v0) :: (mt ++ [(k, ⟨d, now, AI_TRANSLATION_CACHE_TTL⟩)]) := by
  simp only [setCache]
  set v : CacheEntry AITranslationEntry := ⟨d, now, AI_TRANSLATION_CACHE_TTL⟩ with hv
  have happ : jsMapSet (("", v0) :: mt) k v = ("", v0) :: mt ++ [(k, v)] :=
    jsMapSet_fresh _ k v hk
  by_cases hbig : (jsMapSet (("", v0) :: mt) k v).length > 500
  · rw [if_pos hbig]
    have hhead : (jsMapSet (("", v0) :: mt) k v).head? = some ("", v0) := by
      rw [happ]
      rfl
    rw [hhead]
    simp [happ]
  · rw [if_neg hbig, happ]
    rfl

theorem foldl_setCache_length (d : AITranslationEntry) (now : Int) :
    ∀ (as : List String) (v0 : CacheEntry AITranslationEntry) (mt : JsMap),
      as.Nodup → (∀ a ∈ as, a ∉ mapKeys (("", v0) :: mt)) →
      (as.foldl (fun c a => setCache c a d now) (("", v0) :: mt)).length
        = mt.length + 1 + as.length := by
  intro as
  induction as with
  | nil =>
    intro v0 mt _ _
    simp
  | cons a rest ih =>
    intro v0 mt hnd hf
    have hna := (List.nodup_cons.mp hnd).1
    have hnd' := (List.nodup_cons.mp hnd).2
    have ha : a ∉ mapKeys (("", v0) :: mt) := hf a (by simp)
    rw [List.foldl_cons, setCache_head_empty v0 mt a d now ha]
    have hf' : ∀ b ∈ rest,
        b ∉ mapKeys (("", v0) :: (mt ++ [(a, ⟨d, now, AI_TRANSLATION_CACHE_TTL⟩)])) := by
      intro b hb hmem
      have hold := hf b (by simp [hb])
      simp [mapKeys_append] at hmem hold
      rcases hmem with h | h | h
      · exact hold.1 h
      · exact hold.2 h
      · exact hna (h ▸ hb)
    have := ih v0 (mt ++ [(a, ⟨d, now, AI_TRANSLATION_CACHE_TTL⟩)]) hnd' hf'
    rw [this]
    simp
    omega

/-- The concrete entry value used by the eviction counterexample. -/
def cexEntry : AITranslationEntry := ⟨"x", "ai-translation"⟩

/-- Five hundred pairwise-distinct nonempty keys. -/
def cexKeys : List String := (List.range 500).map (fun i => String.mk (List.replicate (i + 1) 'a'))

/-- Cache obtained by setting the empty-string key first (reachable through
`getMeaning(" ")`, since `" "` is truthy but normalizes to `""`) and then 500
distinct fresh keys. -/
def cexCache : JsMap :=
  cexKeys.foldl (fun c a => setCache c a cexEntry 0) (setCache [] "" cexEntry 0)

/-- C1 counterexample: after a sequence of 501 `set` operations the cache
holds 501 entries — the eviction guard `if (oldestKey)` treats the
empty-string key as falsy and skips eviction, so the size bound of 500 is
violated.  Refutes the claim "after each set the cache holds at most 500
entries" as stated. -/
theorem setCache_unbounded_counterexample :
    cexCache.length = 501 ∧ ¬cexCache.length ≤ 500 := by
  have h0 : setCache [] "" cexEntry 0 = [("", ⟨cexEntry, 0, AI_TRANSLATION_CACHE_TTL⟩)] := rfl
  have hnd : cexKeys.Nodup := by
    refine List.Nodup.map ?_ (List.nodup_range 500)
    intro i j hij
    have h2 := congrArg (fun s : String => s.data.length) hij
    simp at h2
    omega
  have hfresh : ∀ a ∈ cexKeys, a ∉ mapKeys [("", ⟨cexEntry, 0, AI_TRANSLATION_CACHE_TTL⟩)] := by
    intro a ha hmem
    simp at hmem
    obtain ⟨i, hi, rfl⟩ := List.mem_map.mp ha
    have h2 := congrArg (fun s : String => s.data.length) hmem
    simp at h2
  have hlen : cexCache.length = ([] : JsMap).length + 1 + cexKeys.length := by
    unfold cexCache
    rw [h0]
    exact foldl_setCache_length cexEntry 0 cexKeys ⟨cexEntry, 0, AI_TRANSLATION_CACHE_TTL⟩ [] hnd hfresh
  have hck : cexKeys.length = 500 := by simp [cexKeys]
  rw [hck] at hlen
  simp at hlen
  constructor
  · omega
  · omega

/-- C1 (amended): for caches whose present keys are nonempty (the intended
regime — cache keys are case-folded trimmed words), every `set` keeps the
size at most 500, and setting a fresh 501st key evicts exactly the
earliest-inserted currently-present entry (the head of the insertion order),
i.e. FIFO eviction.  When the earliest-inserted key is the empty string the
eviction is skipped and the bound can be exceeded (see the counterexample). -/
theorem setCache_bound_and_fifo (m : JsMap) (k : String) (d : AITranslationEntry) (now : Int)
    (h500 : m.length ≤ 500) (hne : "" ∉ mapKeys m) :
    (setCache m k d now).length ≤ 500
    ∧ (m.length = 500 → k ∉ mapKeys m →
        setCache m k d now = m.tail ++ [(k, ⟨d, now, AI_TRANSLATION_CACHE_TTL⟩)]) :=
  ⟨setCache_length_le m k d now h500 hne,
   fun h5 hf => setCache_fifo m k d now h5 hf hne⟩

/-- Witness for the amended C1 theorem at a concrete input. -/
theorem setCache_bound_and_fifo_witness :
    (([] : JsMap).length ≤ 500 ∧ "" ∉ mapKeys ([] : JsMap))
    ∧ ((setCache [] "hello" ⟨"n. 你好", "ai-translation"⟩ 0).length ≤ 500
       ∧ (([] : JsMap).length = 500 → "hello" ∉ mapKeys ([] : JsMap) →
           setCache [] "hello" ⟨"n. 你好", "ai-translation"⟩ 0
             = ([] : JsMap).tail ++ [("hello", ⟨⟨"n. 你好", "ai-translation"⟩, 0, AI_TRANSLATION_CACHE_TTL⟩)])) :=
  ⟨⟨by decide, by decide⟩,
   setCache_bound_and_fifo [] "hello" ⟨"n. 你好", "ai-translation"⟩ 0 (by decide) (by decide)⟩

/-- C2: a value stored under key `k` survives its own `setCache` (the entry
carries `timestamp = t0` and the 24h ttl), and any later `get` at a time `t1`
with `t1 - t0 < ttl` that still finds that entry returns the stored value
unchanged. -/
theorem cache_set_then_get_within_ttl (m : JsMap) (k : String) (d : AITranslationEntry)
    (t0 : Int) (h500 : m.length ≤ 500) :
    jsMapGet (setCache m k d t0) k = some ⟨d, t0, AI_TRANSLATION_CACHE_TTL⟩
    ∧ ∀ (m' : JsMap) (t1 : Int),
        jsMapGet m' k = some ⟨d, t0, AI_TRANSLATION_CACHE_TTL⟩ →
        t1 - t0 < AI_TRANSLATION_CACHE_TTL →
        (getFromCache m' k t1).1 = some d := by
  refine ⟨setCache_get_self m k d t0 h500, ?_⟩
  intro m' t1 hget hlt
  unfold getFromCache
  rw [hget]
  simp [hlt]

/-- Witness for C2 at a concrete input. -/
theorem cache_set_then_get_within_ttl_witness :
    ([] : JsMap).length ≤ 500
    ∧ (jsMapGet (setCache [] "hello" ⟨"interj. 你好", "ai-translation"⟩ 0) "hello"
        = some ⟨⟨"interj. 你好", "ai-translation"⟩, 0, AI_TRANSLATION_CACHE_TTL⟩
       ∧ ∀ (m' : JsMap) (t1 : Int),
          jsMapGet m' "hello" = some ⟨⟨"interj. 你好", "ai-translation"⟩, 0, AI_TRANSLATION_CACHE_TTL⟩ →
          t1 - 0 < AI_TRANSLATION_CACHE_TTL →
          (getFromCache m' "hello" t1).1 = some ⟨"interj. 你好", "ai-translation"⟩) :=
  ⟨by decide, cache_set_then_get_within_ttl [] "hello" ⟨"interj. 你好", "ai-translation"⟩ 0 (by decide)⟩

/-- C3: when the entry stored for the normalized word has expired
(`now - createdAt >= ttl`), `getFromCache` reports a miss and deletes the
entry, and a subsequent `getMeaning` for that word (with an API key
configured) proceeds past the cache to issue the network call. -/
theorem cache_expired_get_absent_then_refetch
    (clean : String → String) (apiKey : String) (m : JsMap) (now : Int)
    (net : NetworkResult) (word : String) (e : CacheEntry AITranslationEntry)
    (hw : word ≠ "") (hkey : apiKey ≠ "")
    (hnd : (mapKeys m).Nodup)
    (hget : jsMapGet m (jsTrim (jsToLower word)) = some e)
    (hexp : ¬(now - e.timestamp < e.ttl)) :
    (getFromCache m (jsTrim (jsToLower word)) now).1 = none
    ∧ jsMapGet (getFromCache m (jsTrim (jsToLower word)) now).2 (jsTrim (jsToLower word)) = none
    ∧ (getMeaning clean apiKey m now net word).networkCalled = true := by
  have h1 : getFromCache m (jsTrim (jsToLower word)) now
      = (none, jsMapDelete m (jsTrim (jsToLower word))) := by
    unfold getFromCache
    rw [hget]
    simp [hexp]
  refine ⟨by rw [h1], ?_, ?_⟩
  · rw [h1]
    exact jsMapGet_delete_self m _ hnd
  · by_cases hs : net.success
    · simp [getMeaning, hw, h1, hkey, hs]
    · simp [getMeaning, hw, h1, hkey, hs]

/-- Witness for C3 at a concrete input: an entry created at time 0 queried at
its exact expiry time. -/
theorem cache_expired_get_absent_then_refetch_witness :
    (("Hi " ≠ "") ∧ ("sk-key" ≠ "") ∧ (mapKeys [("hi", ⟨⟨"x", "ai-translation"⟩, 0, 100⟩)]).Nodup
      ∧ jsMapGet [("hi", ⟨⟨"x", "ai-translation"⟩, 0, 100⟩)] (jsTrim (jsToLower "Hi ")) = some ⟨⟨"x", "ai-translation"⟩, 0, 100⟩
      ∧ ¬((100 : Int) - 0 < 100))
    ∧ ((getFromCache [("hi", ⟨⟨"x", "ai-translation"⟩, 0, 100⟩)] (jsTrim (jsToLower "Hi ")) 100).1 = none
      ∧ jsMapGet (getFromCache [("hi", ⟨⟨"x", "ai-translation"⟩, 0, 100⟩)] (jsTrim (jsToLower "Hi ")) 100).2 (jsTrim (jsToLower "Hi ")) = none
      ∧ (getMeaning id "sk-key" [("hi", ⟨⟨"x", "ai-translation"⟩, 0, 100⟩)] 100 ⟨true, "y", ""⟩ "Hi ").networkCalled = true) :=
  ⟨⟨by decide, by decide, by decide, by decide, by decide⟩,
   cache_expired_get_absent_then_refetch id "sk-key" [("hi", ⟨⟨"x", "ai-translation"⟩, 0, 100⟩)]
     100 ⟨true, "y", ""⟩ "Hi " ⟨⟨"x", "ai-translation"⟩, 0, 100⟩
     (by decide) (by decide) (by decide) (by decide) (by decide)⟩

/-- C5: `getMeaning` consults the cache before validating the API key — a
miss with no configured key fails with the ConfigError message and performs
no network call, while a hit succeeds with `cached = true` regardless of the
key (in particular with no key configured). -/
theorem getMeaning_cache_before_apikey
    (clean : String → String) (apiKey : String) (m : JsMap) (now : Int)
    (net : NetworkResult) (word : String) (hw : word ≠ "") :
    ((getFromCache m (jsTrim (jsToLower word)) now).1 = none → apiKey = "" →
      (getMeaning clean apiKey m now net word).result
          = ⟨false, none, none, some "AI API配置不完整：缺少API Key"⟩
      ∧ (getMeaning clean apiKey m now net word).networkCalled = false)
    ∧ (∀ d, (getFromCache m (jsTrim (jsToLower word)) now).1 = some d →
      (getMeaning clean apiKey m now net word).result = ⟨true, some d, some true, none⟩
      ∧ (getMeaning clean apiKey m now net word).networkCalled = false) := by
  constructor
  · intro hmiss hnokey
    constructor
    · simp [getMeaning, hw, hmiss, hnokey]
    · simp [getMeaning, hw, hmiss, hnokey]
  · intro d hhit
    constructor
    · simp [getMeaning, hw, hhit]
    · simp [getMeaning, hw, hhit]

/-- Witness for C5 at a concrete input: empty cache, no API key. -/
theorem getMeaning_cache_before_apikey_witness :
    ("hello" ≠ "")
    ∧ (((getFromCache ([] : JsMap) (jsTrim (jsToLower "hello")) 0).1 = none → "" = "" →
        (getMeaning id "" [] 0 ⟨true, "y", ""⟩ "hello").result
            = ⟨false, none, none, some "AI API配置不完整：缺少API Key"⟩
        ∧ (getMeaning id "" [] 0 ⟨true, "y", ""⟩ "hello").networkCalled = false)
      ∧ (∀ d, (getFromCache ([] : JsMap) (jsTrim (jsToLower "hello")) 0).1 = some d →
        (getMeaning id "" [] 0 ⟨true, "y", ""⟩ "hello").result = ⟨true, some d, some true, none⟩
        ∧ (getMeaning id "" [] 0 ⟨true, "y", ""⟩ "hello").networkCalled = false)) :=
  ⟨by decide, getMeaning_cache_before_apikey id "" [] 0 ⟨true, "y", ""⟩ "hello" (by decide)⟩

/-- C10: whenever `getMeaning` returns a failure result, no entry is inserted
into the cache — the cache is either untouched, or has only lost the expired
entry stored under the queried (normalized) key, deleted lazily by the cache
lookup. -/
theorem getMeaning_failure_no_insert
    (clean : String → String) (apiKey : String) (m : JsMap) (now : Int)
    (net : NetworkResult) (word : String)
    (hfail : (getMeaning clean apiKey m now net word).result.success = false) :
    (getMeaning clean apiKey m now net word).cache = m
    ∨ ∃ e, jsMapGet m (jsTrim (jsToLower word)) = some e
        ∧ ¬(now - e.timestamp < e.ttl)
        ∧ (getMeaning clean apiKey m now net word).cache
            = jsMapDelete m (jsTrim (jsToLower word)) := by
  by_cases hw : word = ""
  · left
    simp [getMeaning, hw]
  · cases hg : jsMapGet m (jsTrim (jsToLower word)) with
    | none =>
      left
      have h1 : getFromCache m (jsTrim (jsToLower word)) now = (none, m) := by
        unfold getFromCache
        rw [hg]
      by_cases hkey : apiKey = ""
      · simp [getMeaning, hw, h1, hkey]
      · by_cases hs : net.success
        · exfalso
          have hsucc : (getMeaning clean apiKey m now net word).result.success = true := by
            simp [getMeaning, hw, h1, hkey, hs]
          rw [hfail] at hsucc
          exact Bool.false_ne_true hsucc
        · simp [getMeaning, hw, h1, hkey, hs]
    | some e =>
      by_cases hv : now - e.timestamp < e.ttl
      · exfalso
        have h1 : getFromCache m (jsTrim (jsToLower word)) now = (some e.data, m) := by
          unfold getFromCache
          rw [hg]
          simp [hv]
        have hsucc : (getMeaning clean apiKey m now net word).result.success = true := by
          simp [getMeaning, hw, h1]
        rw [hfail] at hsucc
        exact Bool.false_ne_true hsucc
      · right
        refine ⟨e, rfl, hv, ?_⟩
        have h1 : getFromCache m (jsTrim (jsToLower word)) now
            = (none, jsMapDelete m (jsTrim (jsToLower word))) := by
          unfold getFromCache
          rw [hg]
          simp [hv]
        by_cases hkey : apiKey = ""
        · simp [getMeaning, hw, h1, hkey]
        · by_cases hs : net.success
          · exfalso
            have hsucc : (getMeaning clean apiKey m now net word).result.success = true := by
              simp [getMeaning, hw, h1, hkey, hs]
            rw [hfail] at hsucc
            exact Bool.false_ne_true hsucc
          · simp [getMeaning, hw, h1, hkey, hs]

/-- Witness for C10 at a concrete input: the invalid empty word fails and
leaves the cache untouched. -/
theorem getMeaning_failure_no_insert_witness :
    (getMeaning id "" [] 0 ⟨true, "y", ""⟩ "").result.success = false
    ∧ ((getMeaning id "" [] 0 ⟨true, "y", ""⟩ "").cache = []
      ∨ ∃ e, jsMapGet [] (jsTrim (jsToLower "")) = some e
          ∧ ¬((0 : Int) - e.timestamp < e.ttl)
          ∧ (getMeaning id "" [] 0 ⟨true, "y", ""⟩ "").cache
              = jsMapDelete [] (jsTrim (jsToLower ""))) :=
  ⟨by decide, getMeaning_failure_no_insert id "" [] 0 ⟨true, "y", ""⟩ "" (by decide)⟩

theorem getFromCache_hit (m : JsMap) (k : String) (now : Int)
    (e : CacheEntry AITranslationEntry) (h : jsMapGet m k = some e)
    (hv : now - e.timestamp < e.ttl) : getFromCache m k now = (some e.data, m) := by
  unfold getFromCache
  rw [h]
  simp [hv]

/-- C4: on a cache miss with a configured key and a successful network
response, `getMeaning` performs the one network call and returns the parsed
payload with `cached = false`; any later call for the same word within the
ttl window returns the identical payload with `cached = true`, performs no
network call, and leaves the cache unchanged. -/
theorem getMeaning_idempotent
    (clean : String → String) (apiKey : String) (m : JsMap) (t1 t2 : Int)
    (net : NetworkResult) (word : String)
    (hw : word ≠ "") (hkey : apiKey ≠ "") (hnet : net.success = true)
    (h500 : m.length ≤ 500)
    (hmiss : (getFromCache m (jsTrim (jsToLower word)) t1).1 = none)
    (hwin : t2 - t1 < AI_TRANSLATION_CACHE_TTL) :
    (getMeaning clean apiKey m t1 net word).result
      = ⟨true, some (parseAIResponse clean net.content (jsTrim (jsToLower word))), some false, none⟩
    ∧ (getMeaning clean apiKey m t1 net word).networkCalled = true
    ∧ ∀ net2 : NetworkResult,
        (getMeaning clean apiKey (getMeaning clean apiKey m t1 net word).cache t2 net2 word).result
          = ⟨true, some (parseAIResponse clean net.content (jsTrim (jsToLower word))), some true, none⟩
        ∧ (getMeaning clean apiKey (getMeaning clean apiKey m t1 net word).cache t2 net2 word).networkCalled
            = false
        ∧ (getMeaning clean apiKey (getMeaning clean apiKey m t1 net word).cache t2 net2 word).cache
            = (getMeaning clean apiKey m t1 net word).cache := by
  set k := jsTrim (jsToLower word) with hk
  set info := parseAIResponse clean net.content k with hinfo
  have ho1 : getMeaning clean apiKey m t1 net word
      = ⟨⟨true, some info, some false, none⟩,
         setCache (getFromCache m k t1).2 k info t1, true⟩ := by
    simp [getMeaning, hw, hmiss, hkey, hnet, hk, hinfo]
  have hlen : (getFromCache m k t1).2.length ≤ 500 :=
    le_trans (getFromCache_length_le m k t1) h500
  have hget2 : jsMapGet (setCache (getFromCache m k t1).2 k info t1) k
      = some ⟨info, t1, AI_TRANSLATION_CACHE_TTL⟩ :=
    setCache_get_self _ k info t1 hlen
  have hfc2 : getFromCache (setCache (getFromCache m k t1).2 k info t1) k t2
      = (some info, setCache (getFromCache m k t1).2 k info t1) :=
    getFromCache_hit _ k t2 _ hget2 hwin
  refine ⟨by rw [ho1], by rw [ho1], ?_⟩
  intro net2
  rw [ho1]
  refine ⟨?_, ?_, ?_⟩
  · simp [getMeaning, hw, hfc2, hk]
  · simp [getMeaning, hw, hfc2, hk]
  · simp [getMeaning, hw, hfc2, hk]

/-- Witness for C4 at a concrete input mirroring the spec's mocked-endpoint
scenario for the word "hello". -/
theorem getMeaning_idempotent_witness :
    (("hello" ≠ "") ∧ ("sk-key" ≠ "")
      ∧ (⟨true, "interj. 你好；n. 打招呼", ""⟩ : NetworkResult).success = true
      ∧ ([] : JsMap).length ≤ 500
      ∧ (getFromCache ([] : JsMap) (jsTrim (jsToLower "hello")) 0).1 = none
      ∧ (1 : Int) - 0 < AI_TRANSLATION_CACHE_TTL)
    ∧ ((getMeaning id "sk-key" [] 0 ⟨true, "interj. 你好；n. 打招呼", ""⟩ "hello").result
        = ⟨true, some (parseAIResponse id "interj. 你好；n. 打招呼" (jsTrim (jsToLower "hello"))), some false, none⟩
      ∧ (getMeaning id "sk-key" [] 0 ⟨true, "interj. 你好；n. 打招呼", ""⟩ "hello").networkCalled = true
      ∧ ∀ net2 : NetworkResult,
          (getMeaning id "sk-key" (getMeaning id "sk-key" [] 0 ⟨true, "interj. 你好；n. 打招呼", ""⟩ "hello").cache 1 net2 "hello").result
            = ⟨true, some (parseAIResponse id "interj. 你好；n. 打招呼" (jsTrim (jsToLower "hello"))), some true, none⟩
          ∧ (getMeaning id "sk-key" (getMeaning id "sk-key" [] 0 ⟨true, "interj. 你好；n. 打招呼", ""⟩ "hello").cache 1 net2 "hello").networkCalled
              = false
          ∧ (getMeaning id "sk-key" (getMeaning id "sk-key" [] 0 ⟨true, "interj. 你好；n. 打招呼", ""⟩ "hello").cache 1 net2 "hello").cache
              = (getMeaning id "sk-key" [] 0 ⟨true, "interj. 你好；n. 打招呼", ""⟩ "hello").cache) :=
  ⟨⟨by decide, by decide, by decide, by decide, by decide, by decide⟩,
   getMeaning_idempotent id "sk-key" [] 0 1 ⟨true, "interj. 你好；n. 打招呼", ""⟩ "hello"
     (by decide) (by decide) (by decide) (by decide) (by decide) (by decide)⟩

/-- C6: shape of the explanation produced by `parseAIResponse` — the source
tag is always 'ai-translation'; empty or whitespace-only content yields the
synthesized placeholder; otherwise the markdown-stripped content is stored,
truncated to its first 200 characters with an ellipsis marker when longer. -/
theorem parseAIResponse_explain_spec (clean : String → String) (content word : String) :
    (parseAIResponse clean content word).source = "ai-translation"
    ∧ (jsTrim content = "" →
        (parseAIResponse clean content word).explain = word ++ " 的释义暂不可用")
    ∧ (jsTrim content ≠ "" → (clean (jsTrim content)).length > 200 →
        (parseAIResponse clean content word).explain = jsTake (clean (jsTrim content)) 200 ++ "...")
    ∧ (jsTrim content ≠ "" → ¬((clean (jsTrim content)).length > 200) →
        (parseAIResponse clean content word).explain = clean (jsTrim content)) := by
  refine ⟨?_, ?_, ?_, ?_⟩
  · by_cases h : jsTrim content = ""
    · simp [parseAIResponse, h]
    · by_cases h2 : (clean (jsTrim content)).length > 200 <;> simp [parseAIResponse, h, h2]
  · intro h
    simp [parseAIResponse, h]
  · intro h h2
    simp [parseAIResponse, h, h2]
  · intro h h2
    simp [parseAIResponse, h, h2]

/-- Witness for C6 at concrete inputs: whitespace-only content falls back to
the placeholder, and ordinary content keeps the 'ai-translation' tag. -/
theorem parseAIResponse_explain_spec_witness :
    (jsTrim "   " = "" ∧ (parseAIResponse id "   " "hello").explain = "hello" ++ " 的释义暂不可用")
    ∧ (parseAIResponse id "interj. 你好" "hello").source = "ai-translation" :=
  ⟨⟨by decide, (parseAIResponse_explain_spec id "   " "hello").2.1 (by decide)⟩,
   (parseAIResponse_explain_spec id "interj. 你好" "hello").1⟩

/-! ### Tooltip renderer (`TooltipRenderer` in the bundled renderer source).
The template literals are mirrored as string concatenations with the same
tags, classes and text in the same order; the purely presentational
indentation and line breaks of the backtick templates are elided. -/

/-- One phonetic transcription variant, as read by the renderer
(`phonetic?.phonetics[0]?.text`). -/
structure PhoneticEntry where
  text : String
deriving DecidableEq, Repr

/-- Phonetic lookup error state (`error?.hasPhoneticError`,
`error?.phoneticErrorMessage`). -/
structure PhoneticError where
  hasPhoneticError : Bool
  phoneticErrorMessage : String
deriving DecidableEq, Repr

/-- `PhoneticInfo` as consumed by `createWordTooltipHTML`. -/
structure PhoneticInfo where
  word : String
  phonetics : List PhoneticEntry
  aiTranslation : Option AITranslationEntry
  error : Option PhoneticError
deriving DecidableEq, Repr

/-- `PronunciationElementData` as consumed by the renderer: the text of the
anchor plus the currently-known phonetic/translation data. -/
structure PronunciationElementData where
  word : String
  phonetic : Option PhoneticInfo
deriving DecidableEq, Repr

/-- `PronunciationUIConfig`: the only field the mirrored templates read. -/
structure PronunciationUIConfig where
  showPlayButton : Bool
deriving DecidableEq, Repr

/-- Modelled from the spec: `SVG_ICONS.SPEAKER` lives in
`pronunciation/config`, which is not in the provided sources; its markup is
immaterial to the claims and is abstracted as a fixed placeholder. -/
def SPEAKER_ICON : String := "<svg>speaker</svg>"

/-- Modelled from the spec: separator set for `DOMUtils.extractWords`
("splits (by whitespace/punctuation) into more than one token"). -/
def isWordSeparator (c : Char) : Bool :=
  c.isWhitespace || c ∈ [',', '.', ';', ':', '!', '?', '"', '(', ')', '[', ']', '-', '/']

/-- Helper for `extractWords`: scan the characters, collecting maximal runs of
non-separator characters as tokens (empty fragments are dropped). -/
def extractWordsAux (sep : Char → Bool) : List Char → List Char → List String
  | [], acc => if acc = [] then [] else [String.mk acc.reverse]
  | c :: cs, acc =>
    if sep c then
      if acc = [] then extractWordsAux sep cs []
      else String.mk acc.reverse :: extractWordsAux sep cs []
    else extractWordsAux sep cs (c :: acc)

/-- Modelled from the spec: `DOMUtils.extractWords` (in `pronunciation/utils`,
not in the provided sources) splits the input by whitespace/punctuation into
word tokens. -/
def extractWords (s : String) : List String := extractWordsAux isWordSeparator s.data []

/-- Modelled from the spec: one interactive per-word entry of the phrase
view, as produced by `DOMUtils.createInteractiveWordList`. -/
def interactiveWordEntry (w : String) : String :=
  "<span class=\"wxt-interactive-word\" data-word=\"" ++ w ++ "\">" ++ w ++ "</span>"

/-- Modelled from the spec: `DOMUtils.createInteractiveWordList` renders one
interactive entry per token, concatenated in order. -/
def createInteractiveWordList : List String → String
  | [] => ""
  | w :: ws => interactiveWordEntry w ++ createInteractiveWordList ws

/-- `TooltipRenderer.createPhraseTooltipHTML`: header with the phrase text
and optional play button, body with the interactive word list. -/
def createPhraseTooltipHTML (cfg : PronunciationUIConfig) (phrase : String)
    (words : List String) : String :=
  "<div class=\"wxt-tooltip-card\"><div class=\"wxt-tooltip-header\"><div class=\"wxt-word-info\"><div class=\"wxt-phrase-text\">"
  ++ phrase ++ "</div></div>"
  ++ (if cfg.showPlayButton then "<button class=\"wxt-audio-btn\" title=\"朗读\">" ++ SPEAKER_ICON ++ "</button>" else "")
  ++ "</div><div class=\"wxt-tooltip-body\"><div class=\"wxt-phrase-words\">"
  ++ createInteractiveWordList words
  ++ "</div></div><div class=\"wxt-tooltip-arrow\"></div></div>"

/-- `TooltipRenderer.createWordTooltipHTML`: word header, three-state
phonetic row (text, then error, then loading placeholder), and a meaning
container holding either the resolved explanation or the loading placeholder. -/
def createWordTooltipHTML (cfg : PronunciationUIConfig)
    (elementData : PronunciationElementData) : String :=
  let phoneticText := match elementData.phonetic with
    | some p => match p.phonetics.head? with
        | some ph => ph.text
        | none => ""
    | none => ""
  let aiTranslation := elementData.phonetic.bind PhoneticInfo.aiTranslation
  let hasPhoneticError := match elementData.phonetic.bind PhoneticInfo.error with
    | some er => er.hasPhoneticError
    | none => false
  let phoneticErrorMessage := match elementData.phonetic.bind PhoneticInfo.error with
    | some er => er.phoneticErrorMessage
    | none => ""
  let phoneticDisplay :=
    if phoneticText ≠ "" then
      "<div class=\"wxt-phonetic-row\"><div class=\"wxt-phonetic-text\">" ++ phoneticText ++ "</div></div>"
    else if hasPhoneticError then
      "<div class=\"wxt-phonetic-row\"><div class=\"wxt-phonetic-error\">" ++ phoneticErrorMessage ++ "</div></div>"
    else
      "<div class=\"wxt-phonetic-row\"><div class=\"wxt-phonetic-loading\">获取音标中...</div></div>"
  "<div class=\"wxt-tooltip-card\"><div class=\"wxt-tooltip-header\"><div class=\"wxt-word-info\"><div class=\"wxt-word-main\">"
  ++ elementData.word ++ "</div>" ++ phoneticDisplay
  ++ "<div class=\"wxt-meaning-container\">"
  ++ (match aiTranslation with
      | some a => "<div class=\"wxt-meaning-text\">" ++ a.explain ++ "</div>"
      | none => "<div class=\"wxt-meaning-loading\">获取词义中...</div>")
  ++ "</div></div>"
  ++ (if cfg.showPlayButton then "<button class=\"wxt-audio-btn\" title=\"朗读单词\">" ++ SPEAKER_ICON ++ "</button>" else "")
  ++ "</div><div class=\"wxt-tooltip-arrow\"></div></div>"

/-- `TooltipRenderer.createMainTooltipHTML`: extract the word tokens and
branch — more than one token renders the phrase view, otherwise the word
view. -/
def createMainTooltipHTML (cfg : PronunciationUIConfig)
    (elementData : PronunciationElementData) : String :=
  let words := extractWords elementData.word
  if words.length > 1 then createPhraseTooltipHTML cfg elementData.word words
  else createWordTooltipHTML cfg elementData

/-! ### Substring containment and character counting for markup fragments -/

/-- `pat` occurs contiguously inside `hay`. -/
def containsStr (hay pat : String) : Prop := ∃ a b : String, hay = a ++ (pat ++ b)

theorem containsStr_append_left (s y pat : String) (h : containsStr s pat) :
    containsStr (s ++ y) pat := by
  obtain ⟨a, b, hab⟩ := h
  exact ⟨a, b ++ y, by rw [hab]; simp [String.append_assoc]⟩

theorem containsStr_append_right (x s pat : String) (h : containsStr s pat) :
    containsStr (x ++ s) pat := by
  obtain ⟨a, b, hab⟩ := h
  exact ⟨x ++ a, b, by rw [hab]; simp [String.append_assoc]⟩

theorem containsStr_self (pat y : String) : containsStr (pat ++ y) pat :=
  ⟨"", y, by simp [String.empty_append]⟩

/-- Number of occurrences of the character `c` in `s`. -/
def countChar (c : Char) (s : String) : Nat := s.data.count c

theorem countChar_append (c : Char) (a b : String) :
    countChar c (a ++ b) = countChar c a + countChar c b := by
  have hdata : (a ++ b).data = a.data ++ b.data := rfl
  simp [countChar, hdata]

theorem countChar_interactiveWordEntry (w : String) (h : countChar '<' w = 0) :
    countChar '<' (interactiveWordEntry w) = 2 := by
  have h1 : countChar '<' "<span class=\"wxt-interactive-word\" data-word=\"" = 1 := by decide
  have h2 : countChar '<' "\">" = 0 := by decide
  have h3 : countChar '<' "</span>" = 1 := by decide
  simp [interactiveWordEntry, countChar_append, h, h1, h2, h3]

theorem countChar_createInteractiveWordList (ws : List String)
    (h : ∀ w ∈ ws, countChar '<' w = 0) :
    countChar '<' (createInteractiveWordList ws) = 2 * ws.length := by
  induction ws with
  | nil => decide
  | cons w rest ih =>
    have hw := h w (by simp)
    have hrest : ∀ w' ∈ rest, countChar '<' w' = 0 := fun w' hw' => h w' (by simp [hw'])
    simp [createInteractiveWordList, countChar_append,
      countChar_interactiveWordEntry w hw, ih hrest]
    ring

theorem containsStr_refl (pat : String) : containsStr pat pat :=
  ⟨"", "", by simp [String.empty_append, String.append_empty]⟩

/-- C7: `createMainTooltipHTML` branches on the token count of the element's
text — more than one token yields the phrase view, whose interactive word
list (one entry per token, two tags each) is embedded in the fragment; a
single token with no attached translation data yields the word view, which
contains the meaning loading placeholder. -/
theorem createMainTooltipHTML_branches (cfg : PronunciationUIConfig)
    (ed : PronunciationElementData) :
    ((extractWords ed.word).length > 1 →
      createMainTooltipHTML cfg ed = createPhraseTooltipHTML cfg ed.word (extractWords ed.word)
      ∧ containsStr (createMainTooltipHTML cfg ed) (createInteractiveWordList (extractWords ed.word))
      ∧ ((∀ w ∈ extractWords ed.word, countChar '<' w = 0) →
          countChar '<' (createInteractiveWordList (extractWords ed.word))
            = 2 * (extractWords ed.word).length))
    ∧ ((extractWords ed.word).length ≤ 1 →
      ed.phonetic.bind PhoneticInfo.aiTranslation = none →
      createMainTooltipHTML cfg ed = createWordTooltipHTML cfg ed
      ∧ containsStr (createMainTooltipHTML cfg ed) "wxt-meaning-loading") := by
  constructor
  · intro h
    have heq : createMainTooltipHTML cfg ed
        = createPhraseTooltipHTML cfg ed.word (extractWords ed.word) := by
      simp [createMainTooltipHTML, h]
    refine ⟨heq, ?_, fun hw => countChar_createInteractiveWordList _ hw⟩
    rw [heq]
    unfold createPhraseTooltipHTML
    apply containsStr_append_left
    apply containsStr_append_right
    exact containsStr_refl _
  · intro h hnone
    have hng : ¬((extractWords ed.word).length > 1) := by omega
    have heq : createMainTooltipHTML cfg ed = createWordTooltipHTML cfg ed := by
      simp [createMainTooltipHTML, hng]
    refine ⟨heq, ?_⟩
    rw [heq]
    simp only [createWordTooltipHTML, hnone]
    apply containsStr_append_left
    apply containsStr_append_left
    apply containsStr_append_left
    apply containsStr_append_right
    exact ⟨"<div class=\"", "\">获取词义中...</div>", by decide⟩

/-- Witness for C7 at the spec's concrete inputs: the three-token phrase
"break a leg" and the single word "hello" with no attached data. -/
theorem createMainTooltipHTML_branches_witness :
    (extractWords "break a leg").length > 1
    ∧ createMainTooltipHTML ⟨true⟩ ⟨"break a leg", none⟩
        = createPhraseTooltipHTML ⟨true⟩ "break a leg" (extractWords "break a leg")
    ∧ countChar '<' (createInteractiveWordList (extractWords "break a leg"))
        = 2 * (extractWords "break a leg").length
    ∧ containsStr (createMainTooltipHTML ⟨true⟩ ⟨"hello", none⟩) "wxt-meaning-loading" :=
  ⟨by decide,
   ((createMainTooltipHTML_branches ⟨true⟩ ⟨"break a leg", none⟩).1 (by decide)).1,
   ((createMainTooltipHTML_branches ⟨true⟩ ⟨"break a leg", none⟩).1 (by decide)).2.2 (by decide),
   ((createMainTooltipHTML_branches ⟨true⟩ ⟨"hello", none⟩).2 (by decide) rfl).2⟩

/-! ### DOM model for the tooltip patcher.
A node is its class attribute, its own text content, and its children.
`querySelector('.cls')` visits descendants in document (pre-)order: each
child before its following siblings, the child itself before its subtree. -/

/-- Minimal DOM element: class attribute, text content, children. -/
inductive DomNode : Type where
  | mk : String → String → List DomNode → DomNode
deriving Repr

/-- The class attribute of a node. -/
def DomNode.className : DomNode → String
  | .mk c _ _ => c

/-- The direct children of a node. -/
def DomNode.children : DomNode → List DomNode
  | .mk _ _ ch => ch

/-- Walk a child forest in document order and apply `act` to the first node
whose class attribute is `c`: `act` returning `none` removes the node
(`Element.remove()`), `some n'` replaces it in place.  Returns whether a
match was found.  This is `querySelector('.c')` followed by one mutation. -/
def editFirstByClass (c : String) (act : DomNode → Option DomNode) :
    List DomNode → Bool × List DomNode
  | [] => (false, [])
  | DomNode.mk cl tx ch :: rest =>
    if cl = c then
      match act (DomNode.mk cl tx ch) with
      | none => (true, rest)
      | some n' => (true, n' :: rest)
    else
      match editFirstByClass c act ch with
      | (true, ch') => (true, DomNode.mk cl tx ch' :: rest)
      | (false, _) =>
        match editFirstByClass c act rest with
        | (b, rest') => (b, DomNode.mk cl tx ch :: rest')

/-- Number of nodes (including nested ones) in the forest whose class is `c`. -/
def cntByClass (c : String) : List DomNode → Nat
  | [] => 0
  | DomNode.mk cl _ ch :: rest =>
    (if cl = c then 1 else 0) + cntByClass c ch + cntByClass c rest

/-- Text contents of all nodes in the forest whose class is `c`, in document
order. -/
def textsByClass (c : String) : List DomNode → List String
  | [] => []
  | DomNode.mk cl tx ch :: rest =>
    (if cl = c then [tx] else []) ++ textsByClass c ch ++ textsByClass c rest

theorem editFirstByClass_of_cnt_zero (c : String) (act : DomNode → Option DomNode) :
    ∀ ns : List DomNode, cntByClass c ns = 0 → editFirstByClass c act ns = (false, ns)
  | [], _ => by simp [editFirstByClass]
  | DomNode.mk cl tx ch :: rest, h => by
    simp only [cntByClass] at h
    have hcl : cl ≠ c := by
      intro hc
      simp [hc] at h
    have hch : cntByClass c ch = 0 := by omega
    have hrest : cntByClass c rest = 0 := by omega
    simp only [editFirstByClass, hcl, if_neg, ite_false,
      editFirstByClass_of_cnt_zero c act ch hch,
      editFirstByClass_of_cnt_zero c act rest hrest]

theorem textsByClass_of_cnt_zero (c : String) :
    ∀ ns : List DomNode, cntByClass c ns = 0 → textsByClass c ns = []
  | [], _ => by simp [textsByClass]
  | DomNode.mk cl tx ch :: rest, h => by
    simp only [cntByClass] at h
    have hcl : cl ≠ c := by
      intro hc
      simp [hc] at h
    have hch : cntByClass c ch = 0 := by omega
    have hrest : cntByClass c rest = 0 := by omega
    simp [textsByClass, hcl, textsByClass_of_cnt_zero c ch hch,
      textsByClass_of_cnt_zero c rest hrest]

/-- The mutation `updateTooltipWithMeaning` performs inside the located
meaning container: remove the first `.wxt-meaning-loading` descendant, then
either rewrite the text of the first `.wxt-meaning-text` descendant
(`textContent = meaning` also drops its children) or, when none exists,
create and append a fresh `div.wxt-meaning-text` holding the meaning. -/
def applyMeaningToContainer (meaning : String) (container : DomNode) : DomNode :=
  match container with
  | DomNode.mk cl tx ch =>
    let ch1 := (editFirstByClass "wxt-meaning-loading" (fun _ => none) ch).2
    match editFirstByClass "wxt-meaning-text"
        (fun n => some (DomNode.mk n.className meaning [])) ch1 with
    | (true, ch2) => DomNode.mk cl tx ch2
    | (false, _) => DomNode.mk cl tx (ch1 ++ [DomNode.mk "wxt-meaning-text" meaning []])

/-- `TooltipRenderer.updateTooltipWithMeaning`: locate the first
`.wxt-meaning-container` among the tooltip's descendants (returning the
tooltip unchanged when there is none, `if (!meaningContainer) return`),
remove the loading placeholder and create-or-reuse the meaning text element. -/
def updateTooltipWithMeaning (tooltip : DomNode) (meaning : String) : DomNode :=
  match tooltip with
  | DomNode.mk cl tx ch =>
    match editFirstByClass "wxt-meaning-container"
        (fun n => some (applyMeaningToContainer meaning n)) ch with
    | (true, ch') => DomNode.mk cl tx ch'
    | (false, _) => DomNode.mk cl tx ch

/-- A rendered word-view tooltip as produced by `createWordTooltipHTML`:
card > header > word-info > [word-main, phonetic row, meaning container],
plus optional extra header children (the play button) and the arrow. -/
def mkWordTooltipDom (w : String) (phonRow : DomNode) (extras mcs : List DomNode) : DomNode :=
  DomNode.mk "wxt-tooltip-card" ""
    [DomNode.mk "wxt-tooltip-header" ""
      (DomNode.mk "wxt-word-info" ""
        [DomNode.mk "wxt-word-main" w [],
         phonRow,
         DomNode.mk "wxt-meaning-container" "" mcs] :: extras),
     DomNode.mk "wxt-tooltip-arrow" "" []]

theorem applyMeaningToContainer_loading (m lt : String) :
    applyMeaningToContainer m
        (DomNode.mk "wxt-meaning-container" "" [DomNode.mk "wxt-meaning-loading" lt []])
      = DomNode.mk "wxt-meaning-container" "" [DomNode.mk "wxt-meaning-text" m []] := by
  simp [applyMeaningToContainer, editFirstByClass]

theorem applyMeaningToContainer_text (m2 m : String) :
    applyMeaningToContainer m2
        (DomNode.mk "wxt-meaning-container" "" [DomNode.mk "wxt-meaning-text" m []])
      = DomNode.mk "wxt-meaning-container" "" [DomNode.mk "wxt-meaning-text" m2 []] := by
  simp [applyMeaningToContainer, editFirstByClass, DomNode.className]

theorem updateTooltip_on_builder (w m pcl ptx : String) (pch extras mcs : List DomNode)
    (hpcl : pcl ≠ "wxt-meaning-container")
    (hpch : cntByClass "wxt-meaning-container" pch = 0) :
    updateTooltipWithMeaning (mkWordTooltipDom w (DomNode.mk pcl ptx pch) extras mcs) m
      = DomNode.mk "wxt-tooltip-card" ""
          [DomNode.mk "wxt-tooltip-header" ""
            (DomNode.mk "wxt-word-info" ""
              [DomNode.mk "wxt-word-main" w [],
               DomNode.mk pcl ptx pch,
               applyMeaningToContainer m (DomNode.mk "wxt-meaning-container" "" mcs)] :: extras),
           DomNode.mk "wxt-tooltip-arrow" "" []] := by
  have hskip := editFirstByClass_of_cnt_zero "wxt-meaning-container"
      (fun n => some (applyMeaningToContainer m n)) pch hpch
  simp [updateTooltipWithMeaning, mkWordTooltipDom, editFirstByClass, hpcl, hskip]

/-- C8: on a rendered word tooltip whose meaning container holds the loading
placeholder, `updateTooltipWithMeaning` removes the placeholder and leaves
exactly one meaning-text node carrying the supplied content; applying it
again (same or different explanation) reuses that single element,
overwriting its text, and never adds a second meaning-text node. -/
theorem updateTooltipWithMeaning_idempotent
    (w m m2 lt pcl ptx : String) (pch extras : List DomNode)
    (hc : cntByClass "wxt-meaning-container" [DomNode.mk pcl ptx pch] = 0)
    (hl : cntByClass "wxt-meaning-loading" (DomNode.mk pcl ptx pch :: extras) = 0)
    (ht : cntByClass "wxt-meaning-text" (DomNode.mk pcl ptx pch :: extras) = 0) :
    updateTooltipWithMeaning
        (mkWordTooltipDom w (DomNode.mk pcl ptx pch) extras
          [DomNode.mk "wxt-meaning-loading" lt []]) m
      = mkWordTooltipDom w (DomNode.mk pcl ptx pch) extras [DomNode.mk "wxt-meaning-text" m []]
    ∧ cntByClass "wxt-meaning-loading"
        [updateTooltipWithMeaning
          (mkWordTooltipDom w (DomNode.mk pcl ptx pch) extras
            [DomNode.mk "wxt-meaning-loading" lt []]) m] = 0
    ∧ textsByClass "wxt-meaning-text"
        [updateTooltipWithMeaning
          (mkWordTooltipDom w (DomNode.mk pcl ptx pch) extras
            [DomNode.mk "wxt-meaning-loading" lt []]) m] = [m]
    ∧ cntByClass "wxt-meaning-text"
        [updateTooltipWithMeaning
          (mkWordTooltipDom w (DomNode.mk pcl ptx pch) extras
            [DomNode.mk "wxt-meaning-loading" lt []]) m] = 1
    ∧ updateTooltipWithMeaning
        (updateTooltipWithMeaning
          (mkWordTooltipDom w (DomNode.mk pcl ptx pch) extras
            [DomNode.mk "wxt-meaning-loading" lt []]) m) m2
      = mkWordTooltipDom w (DomNode.mk pcl ptx pch) extras [DomNode.mk "wxt-meaning-text" m2 []]
    ∧ textsByClass "wxt-meaning-text"
        [updateTooltipWithMeaning
          (updateTooltipWithMeaning
            (mkWordTooltipDom w (DomNode.mk pcl ptx pch) extras
              [DomNode.mk "wxt-meaning-loading" lt []]) m) m2] = [m2]
    ∧ cntByClass "wxt-meaning-text"
        [updateTooltipWithMeaning
          (updateTooltipWithMeaning
            (mkWordTooltipDom w (DomNode.mk pcl ptx pch) extras
              [DomNode.mk "wxt-meaning-loading" lt []]) m) m2] = 1 := by
  simp only [cntByClass] at hc hl ht
  have hccl : pcl ≠ "wxt-meaning-container" := by
    intro h2
    simp [h2] at hc
  simp only [hccl, if_neg, ite_false] at hc
  have hcpch : cntByClass "wxt-meaning-container" pch = 0 := by omega
  have hlcl : pcl ≠ "wxt-meaning-loading" := by
    intro h2
    simp [h2] at hl
  simp only [hlcl, if_neg, ite_false] at hl
  have hlpch : cntByClass "wxt-meaning-loading" pch = 0 := by omega
  have hlex : cntByClass "wxt-meaning-loading" extras = 0 := by omega
  have htcl : pcl ≠ "wxt-meaning-text" := by
    intro h2
    simp [h2] at ht
  simp only [htcl, if_neg, ite_false] at ht
  have htpch : cntByClass "wxt-meaning-text" pch = 0 := by omega
  have htex : cntByClass "wxt-meaning-text" extras = 0 := by omega
  have h1 : updateTooltipWithMeaning
      (mkWordTooltipDom w (DomNode.mk pcl ptx pch) extras
        [DomNode.mk "wxt-meaning-loading" lt []]) m
      = mkWordTooltipDom w (DomNode.mk pcl ptx pch) extras
          [DomNode.mk "wxt-meaning-text" m []] := by
    rw [updateTooltip_on_builder w m pcl ptx pch extras _ hccl hcpch,
      applyMeaningToContainer_loading]
    rfl
  have h2 : updateTooltipWithMeaning
      (mkWordTooltipDom w (DomNode.mk pcl ptx pch) extras
        [DomNode.mk "wxt-meaning-text" m []]) m2
      = mkWordTooltipDom w (DomNode.mk pcl ptx pch) extras
          [DomNode.mk "wxt-meaning-text" m2 []] := by
    rw [updateTooltip_on_builder w m2 pcl ptx pch extras _ hccl hcpch,
      applyMeaningToContainer_text]
    rfl
  refine ⟨h1, ?_, ?_, ?_, by rw [h1, h2], ?_, ?_⟩
  · rw [h1]
    simp [mkWordTooltipDom, cntByClass, hlcl, hlpch, hlex]
  · rw [h1]
    simp [mkWordTooltipDom, textsByClass, htcl,
      textsByClass_of_cnt_zero _ pch htpch, textsByClass_of_cnt_zero _ extras htex]
  · rw [h1]
    simp [mkWordTooltipDom, cntByClass, htcl, htpch, htex]
  · rw [h1, h2]
    simp [mkWordTooltipDom, textsByClass, htcl,
      textsByClass_of_cnt_zero _ pch htpch, textsByClass_of_cnt_zero _ extras htex]
  · rw [h1, h2]
    simp [mkWordTooltipDom, cntByClass, htcl, htpch, htex]

/-- Witness for C8 at a concrete tooltip: a word view for "hello" with a
phonetic loading row and a meaning loading placeholder, patched with "A" and
then "B". -/
theorem updateTooltipWithMeaning_idempotent_witness :
    (cntByClass "wxt-meaning-container"
        [DomNode.mk "wxt-phonetic-row" "" [DomNode.mk "wxt-phonetic-loading" "获取音标中..." []]] = 0
      ∧ cntByClass "wxt-meaning-loading"
          (DomNode.mk "wxt-phonetic-row" "" [DomNode.mk "wxt-phonetic-loading" "获取音标中..." []] :: []) = 0
      ∧ cntByClass "wxt-meaning-text"
          (DomNode.mk "wxt-phonetic-row" "" [DomNode.mk "wxt-phonetic-loading" "获取音标中..." []] :: []) = 0)
    ∧ (updateTooltipWithMeaning
        (mkWordTooltipDom "hello"
          (DomNode.mk "wxt-phonetic-row" "" [DomNode.mk "wxt-phonetic-loading" "获取音标中..." []]) []
          [DomNode.mk "wxt-meaning-loading" "获取词义中..." []]) "A"
      = mkWordTooltipDom "hello"
          (DomNode.mk "wxt-phonetic-row" "" [DomNode.mk "wxt-phonetic-loading" "获取音标中..." []]) []
          [DomNode.mk "wxt-meaning-text" "A" []]
    ∧ cntByClass "wxt-meaning-loading"
        [updateTooltipWithMeaning
          (mkWordTooltipDom "hello"
            (DomNode.mk "wxt-phonetic-row" "" [DomNode.mk "wxt-phonetic-loading" "获取音标中..." []]) []
            [DomNode.mk "wxt-meaning-loading" "获取词义中..." []]) "A"] = 0
    ∧ textsByClass "wxt-meaning-text"
        [updateTooltipWithMeaning
          (mkWordTooltipDom "hello"
            (DomNode.mk "wxt-phonetic-row" "" [DomNode.mk "wxt-phonetic-loading" "获取音标中..." []]) []
            [DomNode.mk "wxt-meaning-loading" "获取词义中..." []]) "A"] = ["A"]
    ∧ cntByClass "wxt-meaning-text"
        [updateTooltipWithMeaning
          (mkWordTooltipDom "hello"
            (DomNode.mk "wxt-phonetic-row" "" [DomNode.mk "wxt-phonetic-loading" "获取音标中..." []]) []
            [DomNode.mk "wxt-meaning-loading" "获取词义中..." []]) "A"] = 1
    ∧ updateTooltipWithMeaning
        (updateTooltipWithMeaning
          (mkWordTooltipDom "hello"
            (DomNode.mk "wxt-phonetic-row" "" [DomNode.mk "wxt-phonetic-loading" "获取音标中..." []]) []
            [DomNode.mk "wxt-meaning-loading" "获取词义中..." []]) "A") "B"
      = mkWordTooltipDom "hello"
          (DomNode.mk "wxt-phonetic-row" "" [DomNode.mk "wxt-phonetic-loading" "获取音标中..." []]) []
          [DomNode.mk "wxt-meaning-text" "B" []]
    ∧ textsByClass "wxt-meaning-text"
        [updateTooltipWithMeaning
          (updateTooltipWithMeaning
            (mkWordTooltipDom "hello"
              (DomNode.mk "wxt-phonetic-row" "" [DomNode.mk "wxt-phonetic-loading" "获取音标中..." []]) []
              [DomNode.mk "wxt-meaning-loading" "获取词义中..." []]) "A") "B"] = ["B"]
    ∧ cntByClass "wxt-meaning-text"
        [updateTooltipWithMeaning
          (updateTooltipWithMeaning
            (mkWordTooltipDom "hello"
              (DomNode.mk "wxt-phonetic-row" "" [DomNode.mk "wxt-phonetic-loading" "获取音标中..." []]) []
              [DomNode.mk "wxt-meaning-loading" "获取词义中..." []]) "A") "B"] = 1) :=
  ⟨⟨by simp [cntByClass], by simp [cntByClass], by simp [cntByClass]⟩,
   updateTooltipWithMeaning_idempotent "hello" "A" "B" "获取词义中..." "wxt-phonetic-row" ""
     [DomNode.mk "wxt-phonetic-loading" "获取音标中..." []] []
     (by simp [cntByClass]) (by simp [cntByClass]) (by simp [cntByClass])⟩

/-! ### Background `validate-configuration` handler (`src/unnamed/part_000`). -/

/-- Session-scoped storage (`browser.storage.session`): the
"already shown" flag for the missing-API-key notification. -/
structure SessionState where
  apiKeyNotificationShown : Bool
deriving DecidableEq, Repr

/-- Source tag of a validate-configuration request:
`message.source === 'user_action'` is special-cased, anything else follows
the page-load logic. -/
inductive MsgSource where
  | user_action
  | page_load
deriving DecidableEq, Repr

/-- Outcome of one validate-configuration request: the `sendResponse` value,
whether `browser.notifications.create` ran, and the session state after. -/
structure ValidateOutcome where
  response : Bool
  notified : Bool
  state : SessionState
deriving DecidableEq, Repr

/-- The background `onMessage` handler for `validate-configuration`: a valid
active configuration responds `true`; an invalid one responds `false` after
showing the missing-API-key notification — unconditionally for `user_action`
requests, and gated by the session-scoped `apiKeyNotificationShown` flag for
the page-load path (which also sets the flag).  `valid` is the computed
`!!activeConfig?.config?.apiKey`; the storage-failure path (responds `false`,
no notification) is not modelled. -/
def handleValidateConfiguration (valid : Bool) (source : MsgSource) (st : SessionState) :
    ValidateOutcome :=
  if valid then ⟨true, false, st⟩
  else
    match source with
    | .user_action => ⟨false, true, st⟩
    | .page_load =>
        if st.apiKeyNotificationShown then ⟨false, false, st⟩
        else ⟨false, true, ⟨true⟩⟩

/-- Number of notifications shown by page-load-sourced requests across a
request sequence (each request: computed validity and source), threading the
session state. -/
def pageLoadNotifCount : List (Bool × MsgSource) → SessionState → Nat
  | [], _ => 0
  | (v, s) :: rest, st =>
    (if (handleValidateConfiguration v s st).notified = true ∧ s = MsgSource.page_load
     then 1 else 0)
    + pageLoadNotifCount rest (handleValidateConfiguration v s st).state

/-- C9 counterexample: an invalid page-load request notifies and sets the
session flag, yet a following `user_action` request with the flag set still
triggers the notification — the user-action path ignores the flag.  Refutes
"once the flag is set, no further validate-configuration request in that
session triggers the notification" as stated. -/
theorem validate_configuration_notification_counterexample :
    (handleValidateConfiguration false MsgSource.page_load ⟨false⟩).notified = true
    ∧ (handleValidateConfiguration false MsgSource.page_load ⟨false⟩).state.apiKeyNotificationShown
        = true
    ∧ (handleValidateConfiguration false MsgSource.user_action
        (handleValidateConfiguration false MsgSource.page_load ⟨false⟩).state).notified = true := by
  decide

/-- C9 (amended): the session flag gates only page-load-sourced requests —
across any request sequence, page-load requests show the notification at most
once, and never once the flag is set; a `user_action`-sourced request with an
invalid configuration shows the notification every time, regardless of the
flag. -/
theorem validate_configuration_notification_gating :
    (∀ msgs : List (Bool × MsgSource), pageLoadNotifCount msgs ⟨false⟩ ≤ 1)
    ∧ (∀ (msgs : List (Bool × MsgSource)) (st : SessionState),
        st.apiKeyNotificationShown = true → pageLoadNotifCount msgs st = 0)
    ∧ (∀ st : SessionState,
        (handleValidateConfiguration false MsgSource.user_action st).notified = true) := by
  have hzero : ∀ (msgs : List (Bool × MsgSource)) (st : SessionState),
      st.apiKeyNotificationShown = true → pageLoadNotifCount msgs st = 0 := by
    intro msgs
    induction msgs with
    | nil =>
      intro st h
      simp [pageLoadNotifCount]
    | cons p rest ih =>
      intro st h
      obtain ⟨v, s⟩ := p
      obtain ⟨flag⟩ := st
      simp at h
      subst h
      cases v <;> cases s <;>
        simp [pageLoadNotifCount, handleValidateConfiguration, ih ⟨true⟩ rfl]
  refine ⟨?_, hzero, ?_⟩
  · intro msgs
    have hone : ∀ (msgs : List (Bool × MsgSource)) (st : SessionState),
        pageLoadNotifCount msgs st ≤ 1 := by
      intro msgs2
      induction msgs2 with
      | nil =>
        intro st
        simp [pageLoadNotifCount]
      | cons p rest ih =>
        intro st
        obtain ⟨v, s⟩ := p
        obtain ⟨flag⟩ := st
        cases flag
        · cases v
          · cases s
            · simpa [pageLoadNotifCount, handleValidateConfiguration] using ih ⟨false⟩
            · simp [pageLoadNotifCount, handleValidateConfiguration, hzero rest ⟨true⟩ rfl]
          · simpa [pageLoadNotifCount, handleValidateConfiguration] using ih ⟨false⟩
        · simp [hzero ((v, s) :: rest) ⟨true⟩ rfl]
    exact hone msgs ⟨false⟩
  · intro st
    simp [handleValidateConfiguration]

/-- Witness for the amended C9 theorem at a concrete request sequence. -/
theorem validate_configuration_notification_gating_witness :
    pageLoadNotifCount [(false, MsgSource.page_load), (false, MsgSource.user_action)] ⟨false⟩ ≤ 1
    ∧ pageLoadNotifCount [(false, MsgSource.page_load), (false, MsgSource.user_action)] ⟨true⟩ = 0
    ∧ (handleValidateConfiguration false MsgSource.user_action ⟨true⟩).notified = true :=
  ⟨validate_configuration_notification_gating.1
     [(false, MsgSource.page_load), (false, MsgSource.user_action)],
   validate_configuration_notification_gating.2.1
     [(false, MsgSource.page_load), (false, MsgSource.user_action)] ⟨true⟩ (by decide),
   validate_configuration_notification_gating.2.2 ⟨true⟩⟩
